import Mathlib

/-!
Verification of the core of `next-firebase-auth-edge` against its
natural-language specification.

The development shallowly embeds the relevant TypeScript sources:

* `src/jwt-utils/jwt/utils.ts` — the base64 codec used for JWT headers and
  payloads (`btoa`, `stringToBase64`, `objectToBase64`, `base64StringToObject`);
* `src/auth/signature-verifier.ts` — the JWKS fetcher with its process-wide
  `keyResponseCache`, `getExpiresAt`, and `fetchPublicKey` (kid resolution);
* `src/credential.ts` — the service-account OAuth2 credential
  (`createAuthJwt_`, `requestAccessToken`, `refreshToken`, `getToken`);
* `src/auth/error.ts` — the `AuthErrorCode` enum (inlined next to the
  integration test in this snapshot).

Stateful code (the module-level caches) is embedded by explicit state
passing: each operation takes the cache before the call and returns the
result, the cache after the call, and the number of upstream HTTPS requests
it issued.  Time (`Date.now()`) is an explicit integer parameter.
JavaScript numbers appearing where `NaN` can arise are embedded as
`Option Int` with `none` playing the role of `NaN`.
-/

namespace NextFirebaseAuthEdge

/-! ## JavaScript string and number primitives

The sources call a handful of ECMAScript built-ins: `String.prototype.split`
with a one-character separator, `String.prototype.trim`, numeric coercion by
unary `+`, `btoa` and `atob`.  These are embedded here, on `List Char`,
faithfully on the value domain the library exercises (ASCII header values,
decimal integers). -/

/-- Whitespace recognised by the embedded `trim` (the common ASCII subset of
ECMAScript WhiteSpace / LineTerminator). -/
def isJsWs (c : Char) : Bool :=
  c = ' ' || c = '\t' || c = '\n' || c = '\r' || c = '\x0c'

/-- Model of `s.trim()`: strip leading and trailing whitespace. -/
def jsTrim (s : List Char) : List Char :=
  ((s.dropWhile isJsWs).reverse.dropWhile isJsWs).reverse

/-- Model of `s.split(sep)` for a one-character separator `sep` (the source
only splits on `","` and `"="`).  Like the JavaScript original, splitting the
empty string yields `[""]` and separators at the ends yield empty fields. -/
def jsSplit (sep : Char) : List Char → List (List Char)
  | [] => [[]]
  | c :: cs =>
    let r := jsSplit sep cs
    if c = sep then [] :: r else (c :: r.headD []) :: r.tail

/-- Decimal digits to a natural number. -/
def digitsToNat (ds : List Char) : Nat :=
  ds.foldl (fun a c => a * 10 + (c.toNat - 48)) 0

/-- Model of JavaScript numeric coercion `+s`, restricted to the integer
fragment: a whitespace-only string coerces to `0`, an optionally signed
decimal integer to its value, and anything else to `NaN`, embedded as
`none`.  (Fractional, exponent and hexadecimal forms are outside the value
domain the library exchanges and are mapped to `none` as well.) -/
def jsToNum (s : List Char) : Option Int :=
  match jsTrim s with
  | [] => some 0
  | '-' :: ds =>
    if ds ≠ [] ∧ ds.all Char.isDigit then some (-(digitsToNat ds : Int)) else none
  | '+' :: ds =>
    if ds ≠ [] ∧ ds.all Char.isDigit then some ((digitsToNat ds : Int)) else none
  | ds =>
    if ds.all Char.isDigit then some ((digitsToNat ds : Int)) else none

/-! ## Base64 codec (`src/jwt-utils/jwt/utils.ts`)

`stringToBase64` is `btoa` followed by three global regex replacements;
`objectToBase64` composes it with `JSON.stringify`; `base64StringToObject`
composes `JSON.parse` with plain `atob`.  `btoa` is standard base64 over the
code units of a latin1 string; `atob` is the WHATWG forgiving-base64 decode,
which strips ASCII whitespace, accepts missing padding (unless the cleaned
length is ≡ 1 mod 4) and rejects every character outside the standard
alphabet — in particular the URL-safe characters `-` and `_`. -/

/-- The standard base64 alphabet, in index order. -/
def base64Alphabet : List Char :=
  "ABCDEFGHIJKLMNOPQRSTUVWXYZabcdefghijklmnopqrstuvwxyz0123456789+/".data

/-- Character of a 6-bit group. -/
def b64Char (n : Nat) : Char := base64Alphabet.getD n 'A'

/-- Standard base64 of a byte list, with `=` padding: the encoding implemented
by `btoa`. -/
def base64EncodeBytes : List Nat → List Char
  | [] => []
  | [b1] => [b64Char (b1 / 4), b64Char (b1 % 4 * 16), '=', '=']
  | [b1, b2] =>
    [b64Char (b1 / 4), b64Char (b1 % 4 * 16 + b2 / 16), b64Char (b2 % 16 * 4), '=']
  | b1 :: b2 :: b3 :: rest =>
    b64Char (b1 / 4) :: b64Char (b1 % 4 * 16 + b2 / 16) ::
      b64Char (b2 % 16 * 4 + b3 / 64) :: b64Char (b3 % 64) :: base64EncodeBytes rest

/-- Model of `btoa(s)` on its latin1 domain: base64 of the code units. -/
def btoa (s : String) : String :=
  ⟨base64EncodeBytes (s.data.map Char.toNat)⟩

/-- The character rewriting performed by `.replace(/\+/g, "-").replace(/\//g, "_")`. -/
def urlSafeRepl (c : Char) : Char :=
  if c = '+' then '-' else if c = '/' then '_' else c

/-- `stringToBase64` from `src/jwt-utils/jwt/utils.ts`:
`btoa(string).replace(/=/g, "").replace(/\+/g, "-").replace(/\//g, "_")`. -/
def stringToBase64 (s : String) : String :=
  ⟨((btoa s).data.filter (fun c => c ≠ '=')).map urlSafeRepl⟩

/-- JSON values, as produced by `JSON.parse` / consumed by `JSON.stringify`.
Numbers are restricted to the integer fragment the library exchanges. -/
inductive Json where
  | null : Json
  | bool (b : Bool) : Json
  | num (n : Int) : Json
  | str (s : String) : Json
  | arr (xs : List Json) : Json
  | obj (fields : List (String × Json)) : Json

/-- Lowercase hexadecimal digit. -/
def hexChar (n : Nat) : Char := "0123456789abcdef".data.getD n '0'

/-- String-character escaping as performed by `JSON.stringify`: quote and
backslash are escaped, control characters become `\b`, `\t`, `\n`, `\f`,
`\r` or a `\u00xx` escape, everything else is emitted verbatim. -/
def jsonEscapeChar (c : Char) : List Char :=
  if c = '"' then ['\\', '"']
  else if c = '\\' then ['\\', '\\']
  else if c = '\x08' then ['\\', 'b']
  else if c = '\t' then ['\\', 't']
  else if c = '\n' then ['\\', 'n']
  else if c = '\x0c' then ['\\', 'f']
  else if c = '\r' then ['\\', 'r']
  else if c.toNat < 32 then
    ['\\', 'u', '0', '0', hexChar (c.toNat / 16), hexChar (c.toNat % 16)]
  else [c]

/-- A JSON string literal: escaped content between double quotes. -/
def jsonQuote (s : String) : String :=
  "\"" ++ ⟨(s.data.map jsonEscapeChar).flatten⟩ ++ "\""

mutual

/-- Model of `JSON.stringify` (no indentation, no replacer), on the embedded
value type. -/
def jsonStringify : Json → String
  | .null => "null"
  | .bool true => "true"
  | .bool false => "false"
  | .num n => toString n
  | .str s => jsonQuote s
  | .arr xs => "[" ++ jsonStringifyList xs ++ "]"
  | .obj fs => "\x7b" ++ jsonStringifyFields fs ++ "\x7d"

/-- Comma-separated serialization of array elements. -/
def jsonStringifyList : List Json → String
  | [] => ""
  | [x] => jsonStringify x
  | x :: xs => jsonStringify x ++ "," ++ jsonStringifyList xs

/-- Comma-separated serialization of object members. -/
def jsonStringifyFields : List (String × Json) → String
  | [] => ""
  | [(k, v)] => jsonQuote k ++ ":" ++ jsonStringify v
  | (k, v) :: fs => jsonQuote k ++ ":" ++ jsonStringify v ++ "," ++ jsonStringifyFields fs

end

/-- `objectToBase64` from `src/jwt-utils/jwt/utils.ts`:
`stringToBase64(JSON.stringify(object))`. -/
def objectToBase64 (o : Json) : String :=
  stringToBase64 (jsonStringify o)

/-- Index of a character in the standard base64 alphabet, `none` for any
character outside it (so in particular for `-` and `_`). -/
def b64Index (c : Char) : Option Nat :=
  base64Alphabet.indexOf? c

/-- Six-bit values of a cleaned base64 text; fails on the first character
outside the standard alphabet. -/
def b64Values : List Char → Option (List Nat)
  | [] => some []
  | c :: cs =>
    match b64Index c, b64Values cs with
    | some v, some vs => some (v :: vs)
    | _, _ => none

/-- Regrouping of 6-bit values into bytes, as in forgiving-base64 decode:
full groups of four become three bytes, a trailing pair becomes one byte, a
trailing triple two bytes, and a trailing singleton is a failure. -/
def b64Regroup : List Nat → Option (List Nat)
  | [] => some []
  | [_] => none
  | [v0, v1] => some [v0 * 4 + v1 / 16]
  | [v0, v1, v2] => some [v0 * 4 + v1 / 16, v1 % 16 * 16 + v2 / 4]
  | v0 :: v1 :: v2 :: v3 :: rest =>
    (b64Regroup rest).map
      (fun bs => (v0 * 4 + v1 / 16) :: (v1 % 16 * 16 + v2 / 4) :: (v2 % 4 * 64 + v3) :: bs)

/-- Removal of one or two trailing `=` code points (forgiving-base64 step 2;
only applied when the cleaned length is a multiple of four). -/
def stripBase64Pad (l : List Char) : List Char :=
  match l.reverse with
  | '=' :: '=' :: rest => rest.reverse
  | '=' :: rest => rest.reverse
  | _ => l

/-- Model of `atob(s)`: the WHATWG forgiving-base64 decode.  ASCII whitespace
is removed; when the remaining length is a multiple of four, up to two
trailing `=` are dropped; a remaining length ≡ 1 mod 4 or any character
outside the standard alphabet is a failure (`none`, the thrown
`InvalidCharacterError`); otherwise the 6-bit groups are packed into bytes. -/
def atobDecode (s : String) : Option (List Nat) :=
  let cleaned := s.data.filter (fun c => ¬ isJsWs c)
  let unpadded := if cleaned.length % 4 = 0 then stripBase64Pad cleaned else cleaned
  if unpadded.length % 4 = 1 then none
  else (b64Values unpadded).bind b64Regroup

/-! A small executable JSON parser modelling `JSON.parse` on the integer
fragment, used to embed `base64StringToObject`.  Recursion is by explicit
fuel, which keeps every definition structurally recursive and
kernel-reducible. -/

/-- JSON insignificant whitespace. -/
def jsonSkipWs : List Char → List Char
  | c :: cs => if c = ' ' ∨ c = '\t' ∨ c = '\n' ∨ c = '\r' then jsonSkipWs cs else c :: cs
  | [] => []

/-- Body of a JSON string literal up to the closing quote, with the standard
escapes (the `\uXXXX` form is accepted for code points below 256, which
covers the latin1 output of `atob`). -/
def parseJsonStringBody (fuel : Nat) (acc : List Char) (s : List Char) :
    Option (String × List Char) :=
  match fuel, s with
  | 0, _ => none
  | _, [] => none
  | fuel + 1, c :: cs =>
    if c = '"' then some (⟨acc.reverse⟩, cs)
    else if c = '\\' then
      match cs with
      | '"' :: rest => parseJsonStringBody fuel ('"' :: acc) rest
      | '\\' :: rest => parseJsonStringBody fuel ('\\' :: acc) rest
      | '/' :: rest => parseJsonStringBody fuel ('/' :: acc) rest
      | 'b' :: rest => parseJsonStringBody fuel ('\x08' :: acc) rest
      | 'f' :: rest => parseJsonStringBody fuel ('\x0c' :: acc) rest
      | 'n' :: rest => parseJsonStringBody fuel ('\n' :: acc) rest
      | 'r' :: rest => parseJsonStringBody fuel ('\r' :: acc) rest
      | 't' :: rest => parseJsonStringBody fuel ('\t' :: acc) rest
      | 'u' :: h1 :: h2 :: h3 :: h4 :: rest =>
        let hv := fun (c : Char) =>
          if c.isDigit then some (c.toNat - 48)
          else if 'a' ≤ c ∧ c ≤ 'f' then some (c.toNat - 87)
          else if 'A' ≤ c ∧ c ≤ 'F' then some (c.toNat - 55)
          else none
        match hv h1, hv h2, hv h3, hv h4 with
        | some a, some b, some c', some d =>
          parseJsonStringBody fuel (Char.ofNat (a * 4096 + b * 256 + c' * 16 + d) :: acc) rest
        | _, _, _, _ => none
      | _ => none
    else parseJsonStringBody fuel (c :: acc) cs

/-- Leading decimal digits of the input, with the rest. -/
def spanDigits : List Char → List Char × List Char
  | [] => ([], [])
  | c :: cs =>
    if c.isDigit then
      let (ds, rest) := spanDigits cs
      (c :: ds, rest)
    else ([], c :: cs)

mutual

/-- One JSON value at the head of the input (integer-fragment numbers). -/
def parseJsonVal (fuel : Nat) (s : List Char) : Option (Json × List Char) :=
  match fuel with
  | 0 => none
  | fuel + 1 =>
    match s with
    | [] => none
    | c :: cs =>
      if c = '"' then (parseJsonStringBody (cs.length + 1) [] cs).map
        (fun (str, rest) => (Json.str str, rest))
      else if c = '[' then
        match jsonSkipWs cs with
        | ']' :: rest => some (Json.arr [], rest)
        | rest => (parseJsonElems fuel rest).map (fun (xs, r) => (Json.arr xs, r))
      else if c = '\x7b' then
        match jsonSkipWs cs with
        | '\x7d' :: rest => some (Json.obj [], rest)
        | rest => (parseJsonFields fuel rest).map (fun (fs, r) => (Json.obj fs, r))
      else if c = 't' then
        match cs with
        | 'r' :: 'u' :: 'e' :: rest => some (Json.bool true, rest)
        | _ => none
      else if c = 'f' then
        match cs with
        | 'a' :: 'l' :: 's' :: 'e' :: rest => some (Json.bool false, rest)
        | _ => none
      else if c = 'n' then
        match cs with
        | 'u' :: 'l' :: 'l' :: rest => some (Json.null, rest)
        | _ => none
      else if c = '-' then
        match spanDigits cs with
        | ([], _) => none
        | (ds, rest) => some (Json.num (-(digitsToNat ds : Int)), rest)
      else if c.isDigit then
        match spanDigits (c :: cs) with
        | (ds, rest) => some (Json.num (digitsToNat ds), rest)
      else none

/-- Comma-separated array elements, up to and including the closing `]`. -/
def parseJsonElems (fuel : Nat) (s : List Char) : Option (List Json × List Char) :=
  match fuel with
  | 0 => none
  | fuel + 1 =>
    match parseJsonVal fuel (jsonSkipWs s) with
    | none => none
    | some (x, rest) =>
      match jsonSkipWs rest with
      | ',' :: rest' => (parseJsonElems fuel rest').map (fun (xs, r) => (x :: xs, r))
      | ']' :: rest' => some ([x], rest')
      | _ => none

/-- Comma-separated object members, up to and including the closing brace. -/
def parseJsonFields (fuel : Nat) (s : List Char) : Option (List (String × Json) × List Char) :=
  match fuel with
  | 0 => none
  | fuel + 1 =>
    match jsonSkipWs s with
    | '"' :: cs =>
      match parseJsonStringBody (cs.length + 1) [] cs with
      | none => none
      | some (k, rest) =>
        match jsonSkipWs rest with
        | ':' :: rest' =>
          match parseJsonVal fuel (jsonSkipWs rest') with
          | none => none
          | some (v, rest'') =>
            match jsonSkipWs rest'' with
            | ',' :: rest3 => (parseJsonFields fuel rest3).map (fun (fs, r) => ((k, v) :: fs, r))
            | '\x7d' :: rest3 => some ([(k, v)], rest3)
            | _ => none
        | _ => none
    | _ => none

end

/-- Model of `JSON.parse`: one value, surrounded only by whitespace. -/
def jsonParse (s : String) : Option Json :=
  match parseJsonVal (s.data.length + 1) (jsonSkipWs s.data) with
  | some (j, rest) => if jsonSkipWs rest = [] then some j else none
  | none => none

/-- `base64StringToObject` from `src/jwt-utils/jwt/utils.ts`:
`JSON.parse(atob(base64))`.  `none` models the thrown exception, whether it
comes from `atob` or from `JSON.parse`. -/
def base64StringToObject (s : String) : Option Json :=
  (atobDecode s).bind (fun bytes => jsonParse ⟨bytes.map Char.ofNat⟩)

/-! ## JWKS fetcher and key resolution (`src/auth/signature-verifier.ts`) -/

/-- A public-key map `{keyId: PEM}`, as parsed from the JWKS body. -/
abbrev PublicKeys := List (String × String)

/-- A cache entry: the key map plus the absolute expiry time in epoch
milliseconds.  `expiresAt` is `Option Int` because `getExpiresAt` can
produce `NaN` (embedded as `none`) from an unparseable `max-age` value. -/
structure PublicKeysResponse where
  keys : PublicKeys
  expiresAt : Option Int
deriving DecidableEq

/-- The body of the HTTPS response for the certificate URL: a JSON object of
keys, a JSON error object, or an unparseable body (on which `res.json()`
throws). -/
inductive KeysBody where
  | keys (m : PublicKeys) : KeysBody
  | errorBody (error : String) (errorDescription : Option String) : KeysBody
  | malformed : KeysBody
deriving DecidableEq

/-- The HTTPS response observed by the fetcher: status flag, the
`cache-control` header when present, the parsed body and the raw text. -/
structure CertResponse where
  ok : Bool
  cacheControl : Option String
  body : KeysBody
  bodyText : String
deriving DecidableEq

/-- The `reduce` inside `getExpiresAt`: fold over the comma-separated parts
of the `cache-control` header, replacing the accumulator with `+subParts[1]`
at every part whose first `=`-component trims to `max-age`.  A `max-age`
part without `=` reads `+undefined = NaN`, embedded as `none`. -/
def maxAgeStep (acc : Option Int) (part : List Char) : Option Int :=
  let subParts := jsSplit '=' (jsTrim part)
  if subParts.headD [] = "max-age".data then
    match subParts.get? 1 with
    | some v => jsToNum v
    | none => none
  else acc

/-- The `maxAge` accumulator of `getExpiresAt` for a present header. -/
def maxAgeOfHeader (h : String) : Option Int :=
  (jsSplit ',' h.data).foldl maxAgeStep (some 0)

/-- `getExpiresAt` from `src/auth/signature-verifier.ts`: `0` when the
response has no `cache-control` header, otherwise
`Date.now() + maxAge * 1000` — note that this is `Date.now()` itself, not
`0`, when the header carries no `max-age` directive.  `Date.now()` is the
explicit parameter `now`; `none` models a `NaN` result. -/
def getExpiresAt (now : Int) (res : CertResponse) : Option Int :=
  match res.cacheControl with
  | none => some 0
  | some h => (maxAgeOfHeader h).map (fun m => now + m * 1000)

/-- `UrlKeyFetcher.fetchPublicKeysResponse`: reject non-2xx responses and
bodies carrying an `error` member, otherwise produce the key map together
with `getExpiresAt` of the response. -/
def fetchPublicKeysResponse (now : Int) (res : CertResponse) :
    Except String PublicKeysResponse :=
  if ¬ res.ok then
    match res.body with
    | .malformed => .error "json-parse-error"
    | .errorBody e d =>
      .error ("Error fetching public keys for Google certs: " ++ e ++
        (match d with
         | some dd => " (" ++ dd ++ ")"
         | none => ""))
    | .keys _ => .error ("Error fetching public keys for Google certs: " ++ res.bodyText)
  else
    match res.body with
    | .malformed => .error "json-parse-error"
    | .errorBody e _ => .error ("Error fetching public keys for Google certs: " ++ e)
    | .keys m => .ok ⟨m, getExpiresAt now res⟩

/-- The process-wide `keyResponseCache: Map<string, PublicKeysResponse>`,
embedded as an association list with `Map.set` update-in-place semantics. -/
abbrev KeyResponseCache := List (String × PublicKeysResponse)

/-- `Map.set`: overwrite the entry when the key is present, append otherwise. -/
def cacheSet : KeyResponseCache → String → PublicKeysResponse → KeyResponseCache
  | [], k, v => [(k, v)]
  | (k', v') :: rest, k, v =>
    if k' = k then (k, v) :: rest else (k', v') :: cacheSet rest k v

/-- The staleness test `expiresAt <= Date.now()` under JavaScript comparison
semantics: false when `expiresAt` is `NaN`. -/
def expiresAtLeNow (expiresAt : Option Int) (now : Int) : Bool :=
  match expiresAt with
  | none => false
  | some e => e ≤ now

/-- `UrlKeyFetcher.fetchAndCachePublicKeys`: fetch, then store into the
cache — the store happens only after `fetchPublicKeysResponse` succeeded.
The result is the value (or error), the cache after the call, and the number
of HTTPS GET requests issued (always one here). -/
def fetchAndCachePublicKeys (cache : KeyResponseCache) (url : String) (now : Int)
    (res : CertResponse) : Except String PublicKeys × KeyResponseCache × Nat :=
  match fetchPublicKeysResponse now res with
  | .error e => (.error e, cache, 1)
  | .ok r => (.ok r.keys, cacheSet cache url r, 1)

/-- `UrlKeyFetcher.fetchPublicKeys`: serve from `keyResponseCache` when an
entry for the URL exists and is not stale; otherwise fetch and store.  `res`
is the response the network would deliver if a GET were issued. -/
def fetchPublicKeys (cache : KeyResponseCache) (url : String) (now : Int)
    (res : CertResponse) : Except String PublicKeys × KeyResponseCache × Nat :=
  match cache.lookup url with
  | none => fetchAndCachePublicKeys cache url now res
  | some r =>
    if expiresAtLeNow r.expiresAt now then fetchAndCachePublicKeys cache url now res
    else (.ok r.keys, cache, 0)

/-- `NO_MATCHING_KID_ERROR_MESSAGE` from `src/auth/signature-verifier.ts`. -/
def NO_MATCHING_KID_ERROR_MESSAGE : String := "no-matching-kid-error"

/-- `NO_KID_IN_HEADER_ERROR_MESSAGE` from `src/auth/signature-verifier.ts`. -/
def NO_KID_IN_HEADER_ERROR_MESSAGE : String := "no-kid-in-header-error"

/-- JavaScript truthiness of `header.kid` (a string or absent): falsy when
absent or the empty string — the unit tests of the repository treat an empty
`kid` as a missing one. -/
def kidTruthy : Option String → Bool
  | none => false
  | some s => s ≠ ""

/-- `fetchPublicKey` from `src/auth/signature-verifier.ts`: fail with
`NO_KID_IN_HEADER_ERROR_MESSAGE` when the header has no (truthy) `kid`; fail
hard with `NO_MATCHING_KID_ERROR_MESSAGE` when the fetched map has no entry
for the `kid` (there is no fallback over all keys); otherwise return the PEM
key stored under the `kid`. -/
def fetchPublicKey (kid : Option String) (publicKeys : PublicKeys) :
    Except String String :=
  if ¬ kidTruthy kid then .error NO_KID_IN_HEADER_ERROR_MESSAGE
  else
    match publicKeys.lookup (kid.getD "") with
    | none => .error NO_MATCHING_KID_ERROR_MESSAGE
    | some pem => .ok pem

/-! ## Service-account OAuth2 credential (`src/credential.ts`) -/

/-- `TOKEN_EXPIRY_THRESHOLD_MILLIS = 5 * 60 * 1000`. -/
def TOKEN_EXPIRY_THRESHOLD_MILLIS : Int := 5 * 60 * 1000

/-- `GOOGLE_TOKEN_AUDIENCE`. -/
def GOOGLE_TOKEN_AUDIENCE : String := "https://accounts.google.com/o/oauth2/token"

/-- `ONE_HOUR_IN_SECONDS = 60 * 60`. -/
def ONE_HOUR_IN_SECONDS : Int := 60 * 60

/-- `JWT_ALGORITHM = "RS256"`. -/
def JWT_ALGORITHM : String := "RS256"

/-- The `ServiceAccount` interface. -/
structure ServiceAccount where
  projectId : String
  privateKey : String
  clientEmail : String
deriving DecidableEq

/-- The scope list inlined in `createAuthJwt_`. -/
def googleAuthScopes : List String :=
  ["https://www.googleapis.com/auth/cloud-platform",
   "https://www.googleapis.com/auth/firebase.database",
   "https://www.googleapis.com/auth/firebase.messaging",
   "https://www.googleapis.com/auth/identitytoolkit",
   "https://www.googleapis.com/auth/userinfo.email"]

/-- The self-signed assertion payload built by `createAuthJwt_`. -/
structure AuthJwtPayload where
  aud : String
  iat : Int
  exp : Int
  iss : String
  sub : String
  scope : String
deriving DecidableEq

/-- The argument record passed to `sign` by `createAuthJwt_`. -/
structure SignRequest where
  payload : AuthJwtPayload
  privateKey : String
  algorithm : String
deriving DecidableEq

/-- `ServiceAccountCredential.createAuthJwt_`, up to the call to `sign`:
the payload it constructs and the key and algorithm it signs with.
`iat = Math.floor(Date.now() / 1000)` is the explicit parameter. -/
def createAuthJwt_ (sa : ServiceAccount) (iat : Int) : SignRequest :=
  { payload :=
      { aud := GOOGLE_TOKEN_AUDIENCE
        iat := iat
        exp := iat + ONE_HOUR_IN_SECONDS
        iss := sa.clientEmail
        sub := sa.clientEmail
        scope := String.intercalate " " googleAuthScopes }
    privateKey := sa.privateKey
    algorithm := JWT_ALGORITHM }

/-- A JavaScript value sitting in a field of a parsed JSON response. -/
inductive JsVal where
  | str (s : String) : JsVal
  | num (n : Int) : JsVal
  | boolean (b : Bool) : JsVal
  | nullVal : JsVal
deriving DecidableEq

/-- JavaScript truthiness of an optional field: absent, `""`, `0`, `false`
and `null` are falsy. -/
def truthy : Option JsVal → Bool
  | none => false
  | some (.str s) => s ≠ ""
  | some (.num n) => n ≠ 0
  | some (.boolean b) => b
  | some .nullVal => false

/-- Display of a field value inside an error message (string coercion). -/
def showJsVal : JsVal → String
  | .str s => s
  | .num n => toString n
  | .boolean true => "true"
  | .boolean false => "false"
  | .nullVal => "null"

/-- The fields of the OAuth2 token-exchange response body the source reads. -/
structure TokenResponseData where
  access_token : Option JsVal
  expires_in : Option JsVal
  error : Option JsVal
  error_description : Option JsVal
deriving DecidableEq

/-- The HTTPS response for the token exchange: status flag and parsed body
(`none` when `res.json()` throws). -/
structure TokenHttpResponse where
  ok : Bool
  body : Option TokenResponseData
deriving DecidableEq

/-- `getDetailFromResponse`: the upstream `error` member, with
`error_description` appended in parentheses when present. -/
def getDetailFromResponse (d : TokenResponseData) : String :=
  if truthy d.error then
    showJsVal ((d.error).getD .nullVal) ++
      (if truthy d.error_description then
        " (" ++ showJsVal ((d.error_description).getD .nullVal) ++ ")"
      else "")
  else "Missing error payload"

/-- `getErrorMessage` of `src/credential.ts`. -/
def tokenFetchErrorMessage (d : TokenResponseData) : String :=
  "Error fetching access token: " ++ getDetailFromResponse d

/-- `requestAccessToken`: reject non-2xx responses with the upstream error
detail; on a 2xx response reject a body whose `access_token` or `expires_in`
is falsy (absent, but also `""` or `0`); otherwise return the body. -/
def requestAccessToken (res : TokenHttpResponse) : Except String TokenResponseData :=
  if ¬ res.ok then
    match res.body with
    | none => .error "json-parse-error"
    | some d => .error (tokenFetchErrorMessage d)
  else
    match res.body with
    | none => .error "json-parse-error"
    | some d =>
      if ¬ truthy d.access_token ∨ ¬ truthy d.expires_in then
        .error "Unexpected response while fetching access token"
      else .ok d

/-- The cached `FirebaseAccessToken` of the token provider. -/
structure FirebaseAccessToken where
  accessToken : String
  expirationTime : Int
deriving DecidableEq

/-- Substring test `s.indexOf(sub) !== -1` for a non-empty pattern. -/
def jsIncludes (s pattern : String) : Bool :=
  (s.data.tails).any (fun t => pattern.data.isPrefixOf t)

/-- The error-message rewriting of the `.catch` branch of `refreshToken`:
wrap the underlying message, and append the `invalid_grant` advice when the
wrapped message mentions it. -/
def wrapCredentialError (m : String) : String :=
  let em := "Credential implementation provided to initializeApp() via the " ++
    "\"credential\" property failed to fetch a valid Google OAuth2 access token " ++
    "with the following error: \"" ++ m ++ "\"."
  if jsIncludes em "invalid_grant" then
    em ++ " There are two likely causes: (1) your server time is not properly " ++
      "synced or (2) your certificate key file has been revoked."
  else em

/-- `refreshToken` of `getFirebaseAdminTokenProvider`: consume the settled
result of `credential.getAccessToken()` (`upstream`), validate that
`expires_in` is a number and `access_token` a string, build the token with
`expirationTime = Date.now() + expires_in * 1000`, store it in the cache
(the guarded assignment leaves an equal cached value in place), and wrap any
error through the `.catch` branch without touching the cache. -/
def refreshTokenOp (cached : Option FirebaseAccessToken) (now : Int)
    (upstream : Except String TokenResponseData) :
    Except String FirebaseAccessToken × Option FirebaseAccessToken :=
  let inner : Except String FirebaseAccessToken × Option FirebaseAccessToken :=
    match upstream with
    | .error e => (.error e, cached)
    | .ok result =>
      match result.expires_in, result.access_token with
      | some (.num n), some (.str s) =>
        let token : FirebaseAccessToken := ⟨s, now + n * 1000⟩
        let newCached :=
          match cached with
          | none => some token
          | some c =>
            if c.accessToken ≠ token.accessToken ∨ c.expirationTime ≠ token.expirationTime
            then some token
            else some c
        (.ok token, newCached)
      | _, _ => (.error "Invalid access token generated", cached)
  match inner.1 with
  | .error m => (.error (wrapCredentialError m), inner.2)
  | .ok t => (.ok t, inner.2)

/-- `shouldRefresh`: no cached token, or the cached token expires within
`TOKEN_EXPIRY_THRESHOLD_MILLIS` of now. -/
def shouldRefresh (cached : Option FirebaseAccessToken) (now : Int) : Bool :=
  match cached with
  | none => true
  | some c => c.expirationTime - now ≤ TOKEN_EXPIRY_THRESHOLD_MILLIS

/-- `getToken(forceRefresh)`: refresh when forced or `shouldRefresh`,
otherwise resolve with the cached token.  The final component counts the
upstream token-exchange calls made (`refreshToken` performs exactly one).
The `getD` default is unreachable: when `shouldRefresh` is false the cache
is nonempty. -/
def getToken (cached : Option FirebaseAccessToken) (now : Int) (forceRefresh : Bool)
    (upstream : Except String TokenResponseData) :
    Except String FirebaseAccessToken × Option FirebaseAccessToken × Nat :=
  if forceRefresh || shouldRefresh cached now then
    let r := refreshTokenOp cached now upstream
    (r.1, r.2, 1)
  else
    (.ok (cached.getD ⟨"", 0⟩), cached, 0)

/-! ## Error taxonomy (`src/auth/error.ts`, inlined in this snapshot next to
`src/auth/test/verify-token.integration.test.ts`) -/

/-- The member values of the `AuthErrorCode` enum, in source order. -/
def authErrorCodes : List String :=
  ["USER_NOT_FOUND",
   "USER_DISABLED",
   "INVALID_CREDENTIAL",
   "TOKEN_EXPIRED",
   "TOKEN_REVOKED",
   "INVALID_ARGUMENT",
   "INTERNAL_ERROR"]

/-! ## Theorems -/

theorem mem_filterEq_map_urlSafeRepl {c : Char} {l : List Char}
    (h : c ∈ (l.filter (fun c => c ≠ '=')).map urlSafeRepl) :
    c ≠ '=' ∧ c ≠ '+' ∧ c ≠ '/' := by
  rcases List.mem_map.1 h with ⟨a, ha, rfl⟩
  have ha' : a ≠ '=' := by
    have := (List.mem_filter.1 ha).2
    simpa using this
  unfold urlSafeRepl
  split_ifs with h1 h2
  · exact ⟨by decide, by decide, by decide⟩
  · exact ⟨by decide, by decide, by decide⟩
  · exact ⟨ha', h1, h2⟩

/-- C9: for every JSON-serializable object `o`, `objectToBase64 o` is a
URL-safe base64 string: it contains no `=` padding character, no `+` and no
`/`. -/
theorem c9_objectToBase64_is_urlsafe (o : Json) :
    ∀ c ∈ (objectToBase64 o).data, c ≠ '=' ∧ c ≠ '+' ∧ c ≠ '/' := by
  intro c hc
  exact mem_filterEq_map_urlSafeRepl hc

/-- Witness for C9 at the empty object: `objectToBase64 {}` = `"e30"`, whose
first character is neither `=` nor `+` nor `/`. -/
theorem c9_objectToBase64_is_urlsafe_witness :
    'e' ∈ (objectToBase64 (Json.obj [])).data ∧
      ('e' ≠ '=' ∧ 'e' ≠ '+' ∧ 'e' ≠ '/') :=
  ⟨by decide, c9_objectToBase64_is_urlsafe (Json.obj []) 'e' (by decide)⟩

/-- The concrete object on which encode/decode fails to round-trip: its JSON
text is `{"?":"?"}`, whose standard base64 `eyI/IjoiPyJ9` contains `/`. -/
def c10Object : Json := Json.obj [("?", Json.str "?")]

/-- C10: the round-trip `base64StringToObject (objectToBase64 o)` FAILS on
`c10Object`: `objectToBase64` rewrites the `/` of the standard base64 to
`_`, and plain `atob` rejects `_` (it is outside the standard alphabet), so
decoding throws instead of returning the object. -/
theorem c10_roundtrip_fails_on_urlsafe_output :
    objectToBase64 c10Object = "eyI_IjoiPyJ9" ∧
      atobDecode (objectToBase64 c10Object) = none ∧
      base64StringToObject (objectToBase64 c10Object) = none := by
  refine ⟨by decide, by decide, ?_⟩
  rfl

/-- C4: key resolution fails with `NO_KID_IN_HEADER` when the header has no
`kid` (absent or empty, which the source and its unit tests treat alike);
it fails hard with `NO_MATCHING_KID` when the `kid` is not a key of the
fetched map (no fallback over all keys); and it returns the PEM stored
under the `kid` when present. -/
theorem c4_fetchPublicKey_kid_resolution :
    (∀ keys : PublicKeys,
        fetchPublicKey none keys = .error NO_KID_IN_HEADER_ERROR_MESSAGE ∧
        fetchPublicKey (some "") keys = .error NO_KID_IN_HEADER_ERROR_MESSAGE) ∧
    (∀ (s : String) (keys : PublicKeys), s ≠ "" → keys.lookup s = none →
        fetchPublicKey (some s) keys = .error NO_MATCHING_KID_ERROR_MESSAGE) ∧
    (∀ (s : String) (keys : PublicKeys) (pem : String), s ≠ "" →
        keys.lookup s = some pem → fetchPublicKey (some s) keys = .ok pem) := by
  refine ⟨fun keys => ⟨rfl, rfl⟩, ?_, ?_⟩
  · intro s keys hs hlook
    simp [fetchPublicKey, kidTruthy, hs, hlook]
  · intro s keys pem hs hlook
    simp [fetchPublicKey, kidTruthy, hs, hlook]

/-- Witness for C4: a matching kid resolves to its PEM key. -/
theorem c4_fetchPublicKey_kid_resolution_witness :
    fetchPublicKey (some "kid1") [("kid1", "PEM1")] = .ok "PEM1" :=
  c4_fetchPublicKey_kid_resolution.2.2 "kid1" [("kid1", "PEM1")] "PEM1"
    (by decide) (by decide)

/-- C6: the self-signed assertion payload of `createAuthJwt_` has
`aud = GOOGLE_TOKEN_AUDIENCE`, `exp = iat + 3600`, `iss = sub = clientEmail`
and the fixed space-separated scope string, and the request is signed under
RS256 with the service account private key. -/
theorem c6_createAuthJwt_payload (sa : ServiceAccount) (iat : Int) :
    (createAuthJwt_ sa iat).payload.aud = "https://accounts.google.com/o/oauth2/token" ∧
    (createAuthJwt_ sa iat).payload.iat = iat ∧
    (createAuthJwt_ sa iat).payload.exp = iat + 3600 ∧
    (createAuthJwt_ sa iat).payload.iss = sa.clientEmail ∧
    (createAuthJwt_ sa iat).payload.sub = sa.clientEmail ∧
    (createAuthJwt_ sa iat).payload.scope =
      "https://www.googleapis.com/auth/cloud-platform " ++
      "https://www.googleapis.com/auth/firebase.database " ++
      "https://www.googleapis.com/auth/firebase.messaging " ++
      "https://www.googleapis.com/auth/identitytoolkit " ++
      "https://www.googleapis.com/auth/userinfo.email" ∧
    (createAuthJwt_ sa iat).algorithm = "RS256" ∧
    (createAuthJwt_ sa iat).privateKey = sa.privateKey := by
  refine ⟨rfl, rfl, ?_, rfl, rfl, rfl, rfl, rfl⟩
  show iat + ONE_HOUR_IN_SECONDS = iat + 3600
  norm_num [ONE_HOUR_IN_SECONDS]

/-- C7 counterexample: the error-code enum has seven members, and the four
identifiers `INVALID_SIGNATURE`, `NO_KID_IN_HEADER`, `NO_MATCHING_KID` and
`NETWORK_ERROR` claimed by the specification are not among them. -/
theorem c7_enum_counterexample :
    authErrorCodes.length = 7 ∧
    "INVALID_SIGNATURE" ∉ authErrorCodes ∧
    "NO_KID_IN_HEADER" ∉ authErrorCodes ∧
    "NO_MATCHING_KID" ∉ authErrorCodes ∧
    "NETWORK_ERROR" ∉ authErrorCodes := by decide

/-- C7 (amended): the error-code type has exactly the seven distinct members
`USER_NOT_FOUND`, `USER_DISABLED`, `INVALID_CREDENTIAL`, `TOKEN_EXPIRED`,
`TOKEN_REVOKED`, `INVALID_ARGUMENT`, `INTERNAL_ERROR`; the kid-resolution
failures are surfaced as plain error-message strings, not as members. -/
theorem c7_enum_members :
    (∀ c, c ∈ authErrorCodes ↔
      c = "USER_NOT_FOUND" ∨ c = "USER_DISABLED" ∨ c = "INVALID_CREDENTIAL" ∨
      c = "TOKEN_EXPIRED" ∨ c = "TOKEN_REVOKED" ∨ c = "INVALID_ARGUMENT" ∨
      c = "INTERNAL_ERROR") ∧
    authErrorCodes.Nodup ∧
    NO_KID_IN_HEADER_ERROR_MESSAGE ∉ authErrorCodes ∧
    NO_MATCHING_KID_ERROR_MESSAGE ∉ authErrorCodes := by
  refine ⟨?_, by decide, by decide, by decide⟩
  intro c
  simp [authErrorCodes]

/-- A 2xx token-exchange body carrying both fields — `access_token` a string
and `expires_in` a number — on which `requestAccessToken` nevertheless
fails, because `expires_in = 0` is falsy. -/
def c5Body : TokenResponseData :=
  ⟨some (.str "ya29.token"), some (.num 0), none, none⟩

/-- C5 counterexample: the body has an `access_token` string and an
`expires_in` number, yet `requestAccessToken` fails — presence of the two
fields is not sufficient, they must be truthy. -/
theorem c5_requestAccessToken_counterexample :
    c5Body.access_token = some (JsVal.str "ya29.token") ∧
    c5Body.expires_in = some (JsVal.num 0) ∧
    requestAccessToken ⟨true, some c5Body⟩ =
      .error "Unexpected response while fetching access token" :=
  ⟨rfl, rfl, rfl⟩

/-- C5 (amended): on a 2xx response with parseable body, `requestAccessToken`
returns the body exactly when `access_token` and `expires_in` are both
truthy (a present empty string or the number 0 is rejected like an absent
field); otherwise it fails with the invalid-credential error. -/
theorem c5_requestAccessToken_validation (d : TokenResponseData) :
    (truthy d.access_token = true → truthy d.expires_in = true →
      requestAccessToken ⟨true, some d⟩ = .ok d) ∧
    (truthy d.access_token = false ∨ truthy d.expires_in = false →
      requestAccessToken ⟨true, some d⟩ =
        .error "Unexpected response while fetching access token") := by
  constructor
  · intro h1 h2
    simp [requestAccessToken, h1, h2]
  · intro h
    have hcond : ¬ truthy d.access_token ∨ ¬ truthy d.expires_in := by
      rcases h with h | h <;> simp [h]
    simp only [requestAccessToken]
    rw [if_neg (by simp), if_pos hcond]

/-- Witness for C5: a truthy pair is returned as is. -/
theorem c5_requestAccessToken_validation_witness :
    requestAccessToken ⟨true, some ⟨some (.str "t"), some (.num 3600), none, none⟩⟩ =
      .ok ⟨some (.str "t"), some (.num 3600), none, none⟩ :=
  (c5_requestAccessToken_validation ⟨some (.str "t"), some (.num 3600), none, none⟩).1
    (by decide) (by decide)

/-- Spec-side predicate, following the words of the specification for C1: the
response carried a `Cache-Control` header containing a parseable
`max-age=N` directive. -/
def specHasParseableMaxAge : Option String → Bool
  | none => false
  | some h =>
    (jsSplit ',' h.data).any (fun part =>
      let sub := jsSplit '=' (jsTrim part)
      if sub.headD [] = "max-age".data then
        match sub.get? 1 with
        | some v => (jsToNum v).isSome
        | none => false
      else false)

/-- The HTTPS response of the C1 counterexample: 2xx, with a `Cache-Control`
header that carries no `max-age` directive. -/
def c1Response : CertResponse :=
  ⟨true, some "no-cache", .keys [("kid1", "PEM1")], ""⟩

/-- C1 counterexample: at `Date.now() = 1000`, a response whose
`Cache-Control` header has no parseable `max-age` is stored with
`expiresAt = 1000 > 0`, not `0` as the claim requires. -/
theorem c1_getExpiresAt_counterexample :
    getExpiresAt 1000 c1Response = some 1000 ∧
    specHasParseableMaxAge c1Response.cacheControl = false ∧
    getExpiresAt 1000 c1Response ≠ some 0 := by decide

theorem foldl_maxAgeStep_no_directive {l : List (List Char)}
    (h : ∀ p ∈ l, (jsSplit '=' (jsTrim p)).headD [] ≠ "max-age".data)
    (init : Option Int) : l.foldl maxAgeStep init = init := by
  induction l generalizing init with
  | nil => rfl
  | cons p rest ih =>
    rw [List.foldl_cons, show maxAgeStep init p = init from ?_]
    · exact ih (fun q hq => h q (List.mem_cons_of_mem _ hq)) init
    · unfold maxAgeStep
      rw [if_neg (h p (List.mem_cons_self _ _))]

/-- C1 (amended): `expiresAt = 0` exactly when the response carried no
`Cache-Control` header.  When the header is present, `expiresAt` is
`now + 1000·maxAge` with `maxAge` read from the last `max-age` directive —
and when the header carries no `max-age` directive at all, `maxAge` stays
`0` and `expiresAt` equals `now`, which is positive, not `0` (the entry is
merely immediately stale). -/
theorem c1_getExpiresAt_amended (now : Int) (hnow : 0 < now) :
    (∀ okb body text, getExpiresAt now ⟨okb, none, body, text⟩ = some 0) ∧
    (∀ hdr okb body text,
      (∀ p ∈ jsSplit ',' hdr.data, (jsSplit '=' (jsTrim p)).headD [] ≠ "max-age".data) →
      getExpiresAt now ⟨okb, some hdr, body, text⟩ = some now ∧
        getExpiresAt now ⟨okb, some hdr, body, text⟩ ≠ some 0) ∧
    (∀ hdr n okb body text, maxAgeOfHeader hdr = some n →
      getExpiresAt now ⟨okb, some hdr, body, text⟩ = some (now + n * 1000)) := by
  refine ⟨fun _ _ _ => rfl, ?_, ?_⟩
  · intro hdr okb body text hno
    have hval : getExpiresAt now ⟨okb, some hdr, body, text⟩ = some now := by
      have hm : maxAgeOfHeader hdr = some 0 :=
        foldl_maxAgeStep_no_directive hno (some 0)
      simp [getExpiresAt, hm]
    refine ⟨hval, ?_⟩
    rw [hval]
    simp
    omega
  · intro hdr n okb body text hm
    simp [getExpiresAt, hm]

/-- Witness for C1 (amended), at `now = 1000` and header `no-cache`. -/
theorem c1_getExpiresAt_amended_witness :
    getExpiresAt 1000 ⟨true, some "no-cache", KeysBody.keys [], ""⟩ = some 1000 ∧
      getExpiresAt 1000 ⟨true, some "no-cache", KeysBody.keys [], ""⟩ ≠ some 0 :=
  (c1_getExpiresAt_amended 1000 (by decide)).2.1 "no-cache" true (.keys []) ""
    (by decide)

theorem lookup_cacheSet_self (c : KeyResponseCache) (k : String)
    (v : PublicKeysResponse) : (cacheSet c k v).lookup k = some v := by
  induction c with
  | nil => simp [cacheSet, List.lookup]
  | cons hd tl ih =>
    obtain ⟨k', v'⟩ := hd
    by_cases h : k' = k
    · simp [cacheSet, h, List.lookup]
    · have hbeq : (k == k') = false := beq_eq_false_iff_ne.2 (fun hk => h hk.symm)
      simp only [cacheSet, if_neg h, List.lookup, hbeq]
      exact ih

theorem fetchAndCache_issues_one (cache : KeyResponseCache) (url : String)
    (now : Int) (res : CertResponse) :
    (fetchAndCachePublicKeys cache url now res).2.2 = 1 := by
  unfold fetchAndCachePublicKeys
  cases fetchPublicKeysResponse now res <;> rfl

/-- C2: `fetchPublicKeys` serves a present, unexpired cache entry without
issuing a GET and without touching the cache; on a missing or expired entry
it issues exactly one GET whose successfully parsed result replaces the
entry; and two back-to-back lookups inside the freshness window of the
first fetch perform exactly one GET in total. -/
theorem c2_fetchPublicKeys_cache (cache : KeyResponseCache) (url : String)
    (now : Int) (res : CertResponse) :
    (∀ r e, cache.lookup url = some r → r.expiresAt = some e → now < e →
      fetchPublicKeys cache url now res = (.ok r.keys, cache, 0)) ∧
    (cache.lookup url = none →
      fetchPublicKeys cache url now res = fetchAndCachePublicKeys cache url now res ∧
      (fetchPublicKeys cache url now res).2.2 = 1) ∧
    (∀ r, cache.lookup url = some r → expiresAtLeNow r.expiresAt now = true →
      fetchPublicKeys cache url now res = fetchAndCachePublicKeys cache url now res ∧
      (fetchPublicKeys cache url now res).2.2 = 1) ∧
    (∀ pr, fetchPublicKeysResponse now res = .ok pr →
      fetchAndCachePublicKeys cache url now res = (.ok pr.keys, cacheSet cache url pr, 1)) ∧
    (∀ t1 t2 res1 res2 pr e,
      cache.lookup url = none → t1 ≤ t2 →
      fetchPublicKeysResponse t1 res1 = .ok pr → pr.expiresAt = some e → t2 < e →
      (fetchPublicKeys cache url t1 res1).2.2 = 1 ∧
      fetchPublicKeys (fetchPublicKeys cache url t1 res1).2.1 url t2 res2 =
        (.ok pr.keys, (fetchPublicKeys cache url t1 res1).2.1, 0)) := by
  refine ⟨?_, ?_, ?_, ?_, ?_⟩
  · intro r e hl he hlt
    have hstale : expiresAtLeNow r.expiresAt now = false := by
      simp [expiresAtLeNow, he]
      omega
    simp [fetchPublicKeys, hl, hstale]
  · intro h
    refine ⟨by simp [fetchPublicKeys, h], ?_⟩
    simp [fetchPublicKeys, h, fetchAndCache_issues_one]
  · intro r hl hstale
    refine ⟨by simp [fetchPublicKeys, hl, hstale], ?_⟩
    simp [fetchPublicKeys, hl, hstale, fetchAndCache_issues_one]
  · intro pr h
    simp [fetchAndCachePublicKeys, h]
  · intro t1 t2 res1 res2 pr e habsent _ hok he hlt
    have hstep1 : fetchPublicKeys cache url t1 res1 =
        (.ok pr.keys, cacheSet cache url pr, 1) := by
      simp [fetchPublicKeys, habsent, fetchAndCachePublicKeys, hok]
    refine ⟨by rw [hstep1], ?_⟩
    rw [hstep1]
    have hfresh : expiresAtLeNow pr.expiresAt t2 = false := by
      simp [expiresAtLeNow, he]
      omega
    simp [fetchPublicKeys, lookup_cacheSet_self, hfresh]

/-- Witness for C2: a fresh entry is served from the cache without a GET. -/
theorem c2_fetchPublicKeys_cache_witness :
    fetchPublicKeys [("u", ⟨[("k", "P")], some 5000⟩)] "u" 1000 ⟨true, none, .keys [], ""⟩ =
      (.ok [("k", "P")], [("u", ⟨[("k", "P")], some 5000⟩)], 0) :=
  (c2_fetchPublicKeys_cache [("u", ⟨[("k", "P")], some 5000⟩)] "u" 1000
      ⟨true, none, .keys [], ""⟩).1 ⟨[("k", "P")], some 5000⟩ 5000
    (by decide) rfl (by decide)

/-- C3: `getToken(forceRefresh = false)` serves the cache, with no upstream
call, exactly when the cached token expires more than five minutes from
now; every other case (forced, no cache, or inside the threshold) performs
exactly one upstream call; a token served from the cache is served strictly
before its expiration time; and two unforced calls less than
`expires_in·1000 − threshold` apart, starting from an empty cache, perform
exactly one upstream call in total. -/
theorem c3_getToken_cache :
    (∀ (c : FirebaseAccessToken) (now : Int) upstream,
      TOKEN_EXPIRY_THRESHOLD_MILLIS < c.expirationTime - now →
      getToken (some c) now false upstream = (.ok c, some c, 0)) ∧
    (∀ cached (now : Int) force upstream,
      (force = true ∨ cached = none ∨
        (∃ c, cached = some c ∧ c.expirationTime - now ≤ TOKEN_EXPIRY_THRESHOLD_MILLIS)) →
      (getToken cached now force upstream).2.2 = 1) ∧
    (∀ cached (now : Int) force upstream t,
      (getToken cached now force upstream).2.2 = 0 →
      (getToken cached now force upstream).1 = .ok t →
      now < t.expirationTime) ∧
    (∀ (t1 t2 : Int) (s : String) (n : Int) (d : TokenResponseData) upstream2,
      d.access_token = some (.str s) → d.expires_in = some (.num n) →
      t1 ≤ t2 → t2 - t1 < n * 1000 - TOKEN_EXPIRY_THRESHOLD_MILLIS →
      (getToken none t1 false (.ok d)).2.2 = 1 ∧
      (getToken none t1 false (.ok d)).2.1 = some ⟨s, t1 + n * 1000⟩ ∧
      getToken (getToken none t1 false (.ok d)).2.1 t2 false upstream2 =
        (.ok ⟨s, t1 + n * 1000⟩, some ⟨s, t1 + n * 1000⟩, 0)) := by
  refine ⟨?_, ?_, ?_, ?_⟩
  · intro c now upstream hfresh
    have hsr : shouldRefresh (some c) now = false := by
      simp [shouldRefresh]
      omega
    simp [getToken, hsr]
  · intro cached now force upstream h
    rcases h with rfl | rfl | ⟨c, rfl, hc⟩
    · simp [getToken]
    · simp [getToken, shouldRefresh]
    · have hsr : shouldRefresh (some c) now = true := by simp [shouldRefresh, hc]
      simp [getToken, hsr]
  · intro cached now force upstream t hcount hok
    by_cases hcond : (force || shouldRefresh cached now) = true
    · simp [getToken, hcond] at hcount
    · have hforce : force = false := by
        cases force
        · rfl
        · simp at hcond
      have hsr : shouldRefresh cached now = false := by
        cases h' : shouldRefresh cached now
        · rfl
        · rw [hforce, h'] at hcond
          simp at hcond
      have hget : getToken cached now force upstream =
          (.ok (cached.getD ⟨"", 0⟩), cached, 0) := by
        unfold getToken
        rw [if_neg hcond]
      rw [hget] at hok
      simp at hok
      cases cached with
      | none => simp [shouldRefresh] at hsr
      | some c =>
        have hexp : ¬ c.expirationTime - now ≤ TOKEN_EXPIRY_THRESHOLD_MILLIS := by
          simpa [shouldRefresh] using hsr
        have ht : c = t := by simpa using hok
        subst ht
        simp [TOKEN_EXPIRY_THRESHOLD_MILLIS] at hexp
        omega
  · intro t1 t2 s n d upstream2 ha he hle hwin
    have hstep1 : getToken none t1 false (.ok d) =
        (.ok ⟨s, t1 + n * 1000⟩, some ⟨s, t1 + n * 1000⟩, 1) := by
      simp [getToken, shouldRefresh, refreshTokenOp, ha, he]
    refine ⟨by rw [hstep1], by rw [hstep1], ?_⟩
    rw [hstep1]
    have hsr : shouldRefresh (some ⟨s, t1 + n * 1000⟩) t2 = false := by
      simp [shouldRefresh]
      simp [TOKEN_EXPIRY_THRESHOLD_MILLIS] at hwin ⊢
      omega
    simp [getToken, hsr]

/-- Witness for C3: a cached token far from expiry is served with no
upstream call. -/
theorem c3_getToken_cache_witness :
    getToken (some ⟨"tok", 1000000⟩) 0 false (.error "boom") =
      (.ok ⟨"tok", 1000000⟩, some ⟨"tok", 1000000⟩, 0) :=
  c3_getToken_cache.1 ⟨"tok", 1000000⟩ 0 (.error "boom") (by decide)

/-- C8: every error outcome of a cache-writing operation leaves the
corresponding process-wide cache unchanged — the JWKS cache is written only
after `fetchPublicKeysResponse` succeeded, and the token cache only after
the refreshed response passed validation. -/
theorem c8_error_leaves_caches_unchanged :
    (∀ cache url (now : Int) res e,
      (fetchAndCachePublicKeys cache url now res).1 = .error e →
      (fetchAndCachePublicKeys cache url now res).2.1 = cache) ∧
    (∀ cache url (now : Int) res e,
      (fetchPublicKeys cache url now res).1 = .error e →
      (fetchPublicKeys cache url now res).2.1 = cache) ∧
    (∀ cached (now : Int) upstream e,
      (refreshTokenOp cached now upstream).1 = .error e →
      (refreshTokenOp cached now upstream).2 = cached) ∧
    (∀ cached (now : Int) force upstream e,
      (getToken cached now force upstream).1 = .error e →
      (getToken cached now force upstream).2.1 = cached) := by
  have hfac : ∀ cache url (now : Int) res e,
      (fetchAndCachePublicKeys cache url now res).1 = .error e →
      (fetchAndCachePublicKeys cache url now res).2.1 = cache := by
    intro cache url now res e h
    unfold fetchAndCachePublicKeys at h ⊢
    cases hr : fetchPublicKeysResponse now res with
    | error msg => simp [hr]
    | ok r => rw [hr] at h; simp at h
  have hrt : ∀ cached (now : Int) upstream e,
      (refreshTokenOp cached now upstream).1 = .error e →
      (refreshTokenOp cached now upstream).2 = cached := by
    intro cached now upstream e h
    unfold refreshTokenOp at h ⊢
    cases upstream with
    | error msg => simp
    | ok result =>
      cases hein : result.expires_in with
      | none => simp [hein]
      | some v =>
        cases v with
        | num nv =>
          cases hat : result.access_token with
          | none => simp [hein, hat]
          | some w =>
            cases w with
            | str sv => simp [hein, hat] at h
            | num m => simp [hein, hat]
            | boolean b => simp [hein, hat]
            | nullVal => simp [hein, hat]
        | str sv => simp [hein]
        | boolean b => simp [hein]
        | nullVal => simp [hein]
  refine ⟨hfac, ?_, hrt, ?_⟩
  · intro cache url now res e h
    cases hl : cache.lookup url with
    | none =>
      have hrw : fetchPublicKeys cache url now res =
          fetchAndCachePublicKeys cache url now res := by
        simp [fetchPublicKeys, hl]
      rw [hrw] at h ⊢
      exact hfac cache url now res e h
    | some r =>
      by_cases hstale : expiresAtLeNow r.expiresAt now = true
      · have hrw : fetchPublicKeys cache url now res =
            fetchAndCachePublicKeys cache url now res := by
          simp [fetchPublicKeys, hl, hstale]
        rw [hrw] at h ⊢
        exact hfac cache url now res e h
      · have hrw : fetchPublicKeys cache url now res = (.ok r.keys, cache, 0) := by
          simp [fetchPublicKeys, hl, hstale]
        rw [hrw] at h
        simp at h
  · intro cached now force upstream e h
    unfold getToken at h ⊢
    by_cases hcond : (force || shouldRefresh cached now) = true
    · rw [if_pos hcond] at h ⊢
      exact hrt cached now upstream e h
    · rw [if_neg hcond] at h
      simp at h

/-- Witness for C8: a failed fetch (non-2xx, malformed body) leaves the JWKS
cache empty. -/
theorem c8_error_leaves_caches_unchanged_witness :
    (fetchAndCachePublicKeys [] "u" 0 ⟨false, none, .malformed, ""⟩).2.1 = [] :=
  c8_error_leaves_caches_unchanged.1 [] "u" 0 ⟨false, none, .malformed, ""⟩
    "json-parse-error" rfl

end NextFirebaseAuthEdge
